import Mathlib

/-!
Verification of the import-extraction pipeline in
`src/tools/extract_dependencies.py`: the AST-based extractor with its
regex fallback, the notebook and file adapters, the standard-library
filter and the import-name-to-pip-name mapper.

Python sets of strings are modelled as `Finset String`; the `ast` module's
parser is an opaque parameter `parse : String → Option PyNode` (parse
failure is `none`); file reads and notebook JSON decoding are modelled as
`Option` inputs; emitted warnings are returned as the list of paths they
identify.
-/

namespace ExtractDeps

/-- Whitespace characters recognised by Python's `str.strip` and the regex
class `\s` (ASCII range, which covers all inputs considered here). -/
def isPySpace (c : Char) : Bool :=
  c == ' ' || c == '\t' || c == '\n' || c == '\r' || c == '\x0b' || c == '\x0c'

/-- Characters matched by the regex class `[\w\.]`: word characters
(letters, digits, underscore; ASCII range) and the dot. -/
def isWordDot (c : Char) : Bool :=
  c.isAlphanum || c == '_' || c == '.'

/-- `str.strip()`: drop leading and trailing whitespace of a character list. -/
def stripChars (cs : List Char) : List Char :=
  ((cs.dropWhile isPySpace).reverse.dropWhile isPySpace).reverse

/-- `s.split('.')[0]`: the first dot-separated segment of a dotted path
(empty when the path starts with a dot, as Python's `split` gives). -/
def firstSegment (s : String) : String :=
  ⟨s.data.takeWhile (fun c => c != '.')⟩

/-- `code.split('\n')`: split a character list at every newline; a trailing
newline yields a final empty line, and the empty text yields one empty line. -/
def splitOnNl : List Char → List (List Char)
  | [] => [[]]
  | '\n' :: rest => [] :: splitOnNl rest
  | c :: rest =>
    match splitOnNl rest with
    | [] => [[c]]
    | l :: ls => (c :: l) :: ls

/-- `re.match(r'^import\s+([\w\.]+)', line)`: the captured group, when the
line starts with `import`, then one or more whitespace characters, then one
or more word-or-dot characters (the maximal such run, as the greedy `+`
takes, the two classes being disjoint). -/
def matchPattern1 : List Char → Option (List Char)
  | 'i' :: 'm' :: 'p' :: 'o' :: 'r' :: 't' :: rest =>
    if (rest.takeWhile isPySpace).isEmpty then none
    else
      let r2 := rest.dropWhile isPySpace
      let grp := r2.takeWhile isWordDot
      if grp.isEmpty then none else some grp
  | _ => none

/-- `re.match(r'^from\s+([\w\.]+)\s+import', line)`: the captured group,
when the line starts with `from`, whitespace, a maximal run of word-or-dot
characters, whitespace, and then the literal `import`. -/
def matchPattern2 : List Char → Option (List Char)
  | 'f' :: 'r' :: 'o' :: 'm' :: rest =>
    if (rest.takeWhile isPySpace).isEmpty then none
    else
      let r2 := rest.dropWhile isPySpace
      let grp := r2.takeWhile isWordDot
      if grp.isEmpty then none
      else
        let r3 := r2.dropWhile isWordDot
        if (r3.takeWhile isPySpace).isEmpty then none
        else
          match r3.dropWhile isPySpace with
          | 'i' :: 'm' :: 'p' :: 'o' :: 'r' :: 't' :: _ => some grp
          | _ => none
  | _ => none

/-- The names one line contributes in the regex fallback: the line is
stripped, then tried against both patterns; each match contributes the
first segment of its captured dotted path. -/
def lineImports (line : List Char) : Finset String :=
  let l := stripChars line
  (match matchPattern1 l with
   | some grp => {firstSegment ⟨grp⟩}
   | none => ∅) ∪
  (match matchPattern2 l with
   | some grp => {firstSegment ⟨grp⟩}
   | none => ∅)

/-- `extract_imports_regex`: fallback regex-based import extraction, line
by line over the text split at newlines. -/
def extract_imports_regex (code : String) : Finset String :=
  (splitOnNl code.data).foldl (fun imports line => imports ∪ lineImports line) ∅

/-- An `ast.alias` node: a dotted module path and an optional `as` name. -/
structure PyAlias where
  name : String
  asname : Option String
deriving DecidableEq

mutual

/-- A node of Python's syntax tree, as far as the extractor observes it:
`ast.Import` with its alias list, `ast.ImportFrom` with its optional dotted
module path, alias list and relative-import level, and every other node
kind collapsed to `other` with its child nodes (through which `ast.walk`
still descends). -/
inductive PyNode where
  | importStmt : List PyAlias → PyNode
  | importFrom : Option String → List PyAlias → Nat → PyNode
  | other : PyNodeList → PyNode

/-- A list of sibling syntax-tree nodes. -/
inductive PyNodeList where
  | nil : PyNodeList
  | cons : PyNode → PyNodeList → PyNodeList

end

mutual

/-- The names the AST walk records from one node and everything below it:
for `ast.Import` the first segment of each alias's dotted name, for
`ast.ImportFrom` the first segment of the module path when one is present
(a relative import with no module contributes nothing). -/
def astImports : PyNode → List String
  | PyNode.importStmt names => names.map (fun a => firstSegment a.name)
  | PyNode.importFrom module _ _ => (module.map firstSegment).toList
  | PyNode.other children => astImportsList children

/-- The names the AST walk records from a list of nodes, in order. -/
def astImportsList : PyNodeList → List String
  | PyNodeList.nil => []
  | PyNodeList.cons n ns => astImports n ++ astImportsList ns

end

mutual

/-- The dotted paths of all import targets in a subtree: alias names of
plain imports and present module paths of from-imports. -/
def importPaths : PyNode → List String
  | PyNode.importStmt names => names.map PyAlias.name
  | PyNode.importFrom module _ _ => module.toList
  | PyNode.other children => importPathsList children

/-- The dotted paths of all import targets in a list of nodes. -/
def importPathsList : PyNodeList → List String
  | PyNodeList.nil => []
  | PyNodeList.cons n ns => importPaths n ++ importPathsList ns

end

/-- `extract_imports_from_code`: extract top-level module names from code.
The parser is an opaque parameter; on parse success the syntax tree is
walked, on parse failure (`none`, Python's `SyntaxError`) the regex
fallback is applied to the same text and no error reaches the caller. -/
def extract_imports_from_code (parse : String → Option PyNode) (code : String) :
    Finset String :=
  match parse code with
  | none => extract_imports_regex code
  | some tree => (astImports tree).toFinset

/-- `STDLIB_MODULES`: the fixed reference set of standard-library module
names (Python 3.8+), verbatim from the source. -/
def STDLIB_MODULES : Finset String :=
  ([
    "abc", "aifc", "argparse", "array", "ast", "asynchat", "asyncio", "asyncore",
    "atexit", "audioop", "base64", "bdb", "binascii", "binhex", "bisect",
    "builtins", "bz2", "calendar", "cgi", "cgitb", "chunk", "cmath", "cmd",
    "code", "codecs", "codeop", "collections", "colorsys", "compileall",
    "concurrent", "configparser", "contextlib", "contextvars", "copy", "copyreg",
    "cProfile", "crypt", "csv", "ctypes", "curses", "dataclasses", "datetime",
    "dbm", "decimal", "difflib", "dis", "distutils", "doctest", "email",
    "encodings", "enum", "errno", "faulthandler", "fcntl", "filecmp", "fileinput",
    "fnmatch", "fractions", "ftplib", "functools", "gc", "getopt", "getpass",
    "gettext", "glob", "graphlib", "grp", "gzip", "hashlib", "heapq", "hmac",
    "html", "http", "idlelib", "imaplib", "imghdr", "imp", "importlib", "inspect",
    "io", "ipaddress", "itertools", "json", "keyword", "lib2to3", "linecache",
    "locale", "logging", "lzma", "mailbox", "mailcap", "marshal", "math",
    "mimetypes", "mmap", "modulefinder", "multiprocessing", "netrc", "nis",
    "nntplib", "numbers", "operator", "optparse", "os", "ossaudiodev", "pathlib",
    "pdb", "pickle", "pickletools", "pipes", "pkgutil", "platform", "plistlib",
    "poplib", "posix", "posixpath", "pprint", "profile", "pstats", "pty", "pwd",
    "py_compile", "pyclbr", "pydoc", "queue", "quopri", "random", "re",
    "readline", "reprlib", "resource", "rlcompleter", "runpy", "sched", "secrets",
    "select", "selectors", "shelve", "shlex", "shutil", "signal", "site",
    "smtpd", "smtplib", "sndhdr", "socket", "socketserver", "spwd", "sqlite3",
    "ssl", "stat", "statistics", "string", "stringprep", "struct", "subprocess",
    "sunau", "symtable", "sys", "sysconfig", "syslog", "tabnanny", "tarfile",
    "telnetlib", "tempfile", "termios", "test", "textwrap", "threading", "time",
    "timeit", "tkinter", "token", "tokenize", "trace", "traceback", "tracemalloc",
    "tty", "turtle", "turtledemo", "types", "typing", "unicodedata", "unittest",
    "urllib", "uu", "uuid", "venv", "warnings", "wave", "weakref", "webbrowser",
    "winreg", "winsound", "wsgiref", "xdrlib", "xml", "xmlrpc", "zipapp",
    "zipfile", "zipimport", "zlib", "_thread",
    "typing_extensions"
  ] : List String).toFinset

/-- `IMPORT_TO_PIP`: the fixed mapping from import name to pip package
name, verbatim from the source. -/
def IMPORT_TO_PIP : List (String × String) :=
  [("googleapiclient", "google-api-python-client"),
   ("dotenv", "python-dotenv"),
   ("sklearn", "scikit-learn"),
   ("PIL", "Pillow"),
   ("cv2", "opencv-python"),
   ("yaml", "PyYAML"),
   ("bs4", "beautifulsoup4"),
   ("google", "google-api-python-client"),
   ("youtube_transcript_api", "youtube-transcript-api")]

/-- Association-list lookup, modelling Python `dict` lookup on
`IMPORT_TO_PIP` (its keys are pairwise distinct). -/
def lookupTable : List (String × String) → String → Option String
  | [], _ => none
  | (k, v) :: rest, x => if x = k then some v else lookupTable rest x

/-- `IMPORT_TO_PIP.get(imp, imp)`: the mapped pip name of one import name,
the name itself on lookup miss. -/
def pipName (imp : String) : String :=
  (lookupTable IMPORT_TO_PIP imp).getD imp

/-- `filter_third_party`: remove standard library modules from an import set. -/
def filter_third_party (imports : Finset String) : Finset String :=
  imports.filter (fun imp => imp ∉ STDLIB_MODULES)

/-- `map_to_pip_names`: convert import names to pip package names. -/
def map_to_pip_names (imports : Finset String) : Finset String :=
  imports.image pipName

/-- An Extraction Result: a file path paired with its import name set. -/
structure ExtractionResult where
  file : String
  imports : Finset String
deriving DecidableEq

/-- A notebook cell's `source` payload: a single string or an ordered list
of string fragments. -/
inductive CellSource where
  | str : String → CellSource
  | fragments : List String → CellSource

/-- A notebook cell: its `cell_type` tag and its `source` payload. -/
structure NotebookCell where
  cell_type : String
  source : CellSource

/-- A decoded notebook document: its ordered `cells` sequence. -/
structure Notebook where
  cells : List NotebookCell

/-- Normalise a cell's source payload to one text: fragments are
concatenated in order with no separator, a plain string is used as-is. -/
def cellCode : CellSource → String
  | CellSource.str s => s
  | CellSource.fragments l => String.join l

/-- `extract_imports_from_notebook`: extract imports from a notebook.
The read-and-decode of the file is modelled by the `Option Notebook`
argument (`none` for a missing file or malformed JSON). Returns the
extraction result together with the list of paths warned about. -/
def extract_imports_from_notebook (parse : String → Option PyNode)
    (notebook_path : String) (decoded : Option Notebook) :
    ExtractionResult × List String :=
  match decoded with
  | none => (⟨notebook_path, ∅⟩, [notebook_path])
  | some nb =>
    (⟨notebook_path,
      nb.cells.foldl (fun imports cell =>
        if cell.cell_type = "code" then
          imports ∪ extract_imports_from_code parse (cellCode cell.source)
        else imports) ∅⟩, [])

/-- `extract_imports_from_python_file`: extract imports from a Python
source file. The read of the file is modelled by the `Option String`
argument (`none` for a missing file or undecodable bytes). Returns the
extraction result together with the list of paths warned about. -/
def extract_imports_from_python_file (parse : String → Option PyNode)
    (file_path : String) (readResult : Option String) :
    ExtractionResult × List String :=
  match readResult with
  | none => (⟨file_path, ∅⟩, [file_path])
  | some code => (⟨file_path, extract_imports_from_code parse code⟩, [])

/-- A concrete one-statement tree, `import a.b.c`, used to instantiate
theorems about the AST walk at a concrete input. -/
def c1Tree : PyNode :=
  PyNode.other (PyNodeList.cons (PyNode.importStmt [⟨"a.b.c", none⟩]) PyNodeList.nil)

/-- The source text of the numpy/sklearn end-to-end scenario. -/
def c4Text : String :=
  "import numpy as np\nfrom sklearn.model_selection import train_test_split\n"

/-- The syntax tree of `c4Text`: one plain import of `numpy` aliased `np`,
one from-import out of `sklearn.model_selection`. -/
def c4Tree : PyNode :=
  PyNode.other (PyNodeList.cons
    (PyNode.importStmt [⟨"numpy", some "np"⟩])
    (PyNodeList.cons
      (PyNode.importFrom (some "sklearn.model_selection") [⟨"train_test_split", none⟩] 0)
      PyNodeList.nil))

/-- A concrete notebook with no code cell (a markdown cell and a raw cell),
used to instantiate the notebook-adapter theorem at a concrete input. -/
def c8Notebook : Notebook :=
  ⟨[⟨"markdown", CellSource.str "import os"⟩,
    ⟨"raw", CellSource.fragments ["import sys"]⟩]⟩

set_option maxRecDepth 10000

theorem all_takeWhile_self (p : Char → Bool) :
    ∀ l : List Char, ((l.takeWhile p).all p) = true := by
  intro l
  induction l with
  | nil => rfl
  | cons c cs ih =>
    rw [List.takeWhile_cons]
    cases h : p c with
    | false => rfl
    | true =>
      show (c :: List.takeWhile p cs).all p = true
      rw [List.all_cons, h, Bool.true_and]
      exact ih

mutual

theorem astImports_eq : ∀ n : PyNode, astImports n = (importPaths n).map firstSegment
  | PyNode.importStmt names => by
    simp [astImports, importPaths, List.map_map]
  | PyNode.importFrom module names lvl => by
    cases module <;> simp [astImports, importPaths, Option.toList]
  | PyNode.other children => by
    rw [astImports, importPaths, astImportsList_eq children]

theorem astImportsList_eq :
    ∀ l : PyNodeList, astImportsList l = (importPathsList l).map firstSegment
  | PyNodeList.nil => rfl
  | PyNodeList.cons n ns => by
    rw [astImportsList, importPathsList, List.map_append,
      astImports_eq n, astImportsList_eq ns]

end

theorem mem_of_lookupTable {l : List (String × String)} {x v : String}
    (h : lookupTable l x = some v) : (x, v) ∈ l := by
  induction l with
  | nil => simp [lookupTable] at h
  | cons p rest ih =>
    obtain ⟨k, w⟩ := p
    rw [lookupTable] at h
    by_cases hx : x = k
    · subst hx
      rw [if_pos rfl] at h
      injection h with h
      subst h
      exact List.mem_cons_self _ _
    · exact List.mem_cons_of_mem _ (ih (by rwa [if_neg hx] at h))

theorem lookupTable_values :
    (IMPORT_TO_PIP.all fun p => (lookupTable IMPORT_TO_PIP p.2).isNone) = true := by
  decide

theorem pipName_idem (x : String) : pipName (pipName x) = pipName x := by
  unfold pipName
  cases h : lookupTable IMPORT_TO_PIP x with
  | none => simp [h]
  | some v =>
    have hv := List.all_eq_true.mp lookupTable_values _ (mem_of_lookupTable h)
    simp [h, Option.isNone_iff_eq_none.mp hv]

theorem subset_foldl_lineImports :
    ∀ (lines : List (List Char)) (acc : Finset String),
      acc ⊆ lines.foldl (fun imports line => imports ∪ lineImports line) acc := by
  intro lines
  induction lines with
  | nil => intro acc; exact Finset.Subset.refl acc
  | cons l ls ih =>
    intro acc
    rw [List.foldl_cons]
    exact Finset.Subset.trans Finset.subset_union_left (ih _)

theorem mem_foldl_lineImports {x : String} :
    ∀ (lines : List (List Char)) (acc : Finset String) (line : List Char),
      line ∈ lines → x ∈ lineImports line →
      x ∈ lines.foldl (fun imports l => imports ∪ lineImports l) acc := by
  intro lines
  induction lines with
  | nil => intro acc line h _; exact absurd h (List.not_mem_nil _)
  | cons l ls ih =>
    intro acc line hmem hx
    rw [List.foldl_cons]
    rcases List.mem_cons.mp hmem with rfl | hmem2
    · exact subset_foldl_lineImports ls _ (Finset.mem_union_right _ hx)
    · exact ih _ line hmem2 hx

theorem notebook_fold_const (parse : String → Option PyNode) :
    ∀ (cells : List NotebookCell) (acc : Finset String),
      (∀ c ∈ cells, c.cell_type ≠ "code") →
      cells.foldl (fun imports cell =>
        if cell.cell_type = "code" then
          imports ∪ extract_imports_from_code parse (cellCode cell.source)
        else imports) acc = acc := by
  intro cells
  induction cells with
  | nil => intro acc _; rfl
  | cons c cs ih =>
    intro acc h
    rw [List.foldl_cons, if_neg (h c (List.mem_cons_self _ _))]
    exact ih acc fun d hd => h d (List.mem_cons_of_mem _ hd)

/-- C1: whenever the primary (AST) strategy parses the text to a tree `t`,
every element of the extracted set is the first dot-separated segment of
some import target's dotted path of `t`, and contains no dot (so it is
neither a full dotted path with sub-segments nor a non-leading segment). -/
theorem extract_ast_first_segments (parse : String → Option PyNode)
    (code : String) (t : PyNode) (h : parse code = some t) :
    ∀ x ∈ extract_imports_from_code parse code,
      (∃ p ∈ importPaths t, x = firstSegment p)
      ∧ x.data.all (fun c => c != '.') = true := by
  intro x hx
  rw [extract_imports_from_code, h] at hx
  rw [List.mem_toFinset, astImports_eq] at hx
  obtain ⟨p, hp, rfl⟩ := List.mem_map.mp hx
  refine ⟨⟨p, hp, rfl⟩, ?_⟩
  exact all_takeWhile_self (fun c => c != '.') p.data

theorem extract_ast_first_segments_witness :
    (∃ p ∈ importPaths c1Tree, "a" = firstSegment p)
    ∧ "a".data.all (fun c => c != '.') = true :=
  extract_ast_first_segments (fun _ => some c1Tree) "import a.b.c" c1Tree rfl
    "a" (by decide)

/-- C2: when the primary parse fails, the extractor returns exactly the
result of the fallback line-oriented matcher on the same text, the failure
being handled rather than propagated (the function is total). -/
theorem extract_fallback_on_parse_failure (parse : String → Option PyNode)
    (code : String) (h : parse code = none) :
    extract_imports_from_code parse code = extract_imports_regex code := by
  rw [extract_imports_from_code, h]

theorem extract_fallback_on_parse_failure_witness :
    extract_imports_from_code (fun _ => none) "import requests"
      = extract_imports_regex "import requests" :=
  extract_fallback_on_parse_failure (fun _ => none) "import requests" rfl

/-- C3 counterexample: on the text `"def f(:\n  import requests"` with the
primary parse failing, the extractor does not return the empty set — the
fallback strips each line before matching, so the indented import matches. -/
theorem extract_c3_indented_import_not_empty :
    extract_imports_from_code (fun _ => none) "def f(:\n  import requests"
      ≠ (∅ : Finset String) := by
  decide

/-- C3 amended: on the text `"def f(:\n  import requests"`, when the
primary parse fails the extractor returns `{"requests"}`: the fallback
strips each line before pattern matching, so the indented line
`  import requests` matches the import pattern. -/
theorem extract_c3_indented_import_requests (parse : String → Option PyNode)
    (h : parse "def f(:\n  import requests" = none) :
    extract_imports_from_code parse "def f(:\n  import requests"
      = {"requests"} := by
  rw [extract_imports_from_code, h]
  decide

theorem extract_c3_indented_import_requests_witness :
    extract_imports_from_code (fun _ => none) "def f(:\n  import requests"
      = {"requests"} :=
  extract_c3_indented_import_requests (fun _ => none) rfl

/-- C4: on the two-line numpy/sklearn text, with the primary parse
succeeding with its syntax tree, extraction yields `{"numpy", "sklearn"}`;
the standard-library filter leaves that set unchanged; the pip-name mapper
then yields `{"numpy", "scikit-learn"}`. -/
theorem extract_numpy_sklearn_pipeline (parse : String → Option PyNode)
    (h : parse c4Text = some c4Tree) :
    extract_imports_from_code parse c4Text = {"numpy", "sklearn"}
    ∧ filter_third_party (extract_imports_from_code parse c4Text)
        = {"numpy", "sklearn"}
    ∧ map_to_pip_names (filter_third_party (extract_imports_from_code parse c4Text))
        = {"numpy", "scikit-learn"} := by
  have he : extract_imports_from_code parse c4Text = {"numpy", "sklearn"} := by
    rw [extract_imports_from_code, h]
    decide
  refine ⟨he, ?_, ?_⟩
  · rw [he]
    decide
  · rw [he]
    decide

theorem extract_numpy_sklearn_pipeline_witness :
    extract_imports_from_code (fun _ => some c4Tree) c4Text = {"numpy", "sklearn"}
    ∧ filter_third_party (extract_imports_from_code (fun _ => some c4Tree) c4Text)
        = {"numpy", "sklearn"}
    ∧ map_to_pip_names
        (filter_third_party (extract_imports_from_code (fun _ => some c4Tree) c4Text))
        = {"numpy", "scikit-learn"} :=
  extract_numpy_sklearn_pipeline (fun _ => some c4Tree) rfl

/-- C5: the standard-library filter returns a subset of its input and is
idempotent; as a Lean function it is pure and total by construction. -/
theorem filter_third_party_subset_idem (s : Finset String) :
    filter_third_party s ⊆ s
    ∧ filter_third_party (filter_third_party s) = filter_third_party s := by
  constructor
  · exact Finset.filter_subset _ _
  · rw [filter_third_party, filter_third_party, Finset.filter_filter]
    simp

/-- C6: every element of the mapped set is an input name or a value of the
import-to-package table; the mapped set is no larger than the input; and a
name on which the table lookup misses is kept unchanged in the output. -/
theorem map_to_pip_names_range (s : Finset String) :
    (∀ x ∈ map_to_pip_names s, x ∈ s ∨ ∃ p ∈ IMPORT_TO_PIP, x = p.2)
    ∧ (map_to_pip_names s).card ≤ s.card
    ∧ ∀ x ∈ s, lookupTable IMPORT_TO_PIP x = none → x ∈ map_to_pip_names s := by
  refine ⟨?_, Finset.card_image_le, ?_⟩
  · intro x hx
    obtain ⟨y, hy, rfl⟩ := Finset.mem_image.mp hx
    cases h : lookupTable IMPORT_TO_PIP y with
    | none =>
      left
      have hy2 : pipName y = y := by rw [pipName, h]; rfl
      rwa [hy2]
    | some v =>
      right
      exact ⟨(y, v), mem_of_lookupTable h, by rw [pipName, h]; rfl⟩
  · intro x hx h
    have hx2 : pipName x = x := by rw [pipName, h]; rfl
    exact hx2 ▸ Finset.mem_image_of_mem pipName hx

/-- C7: the file adapter on a missing or undecodable file returns the
extraction result pairing the path with the empty set, together with a
warning identifying the path, without raising (the function is total). -/
theorem python_file_missing_soft_failure (parse : String → Option PyNode)
    (path : String) :
    extract_imports_from_python_file parse path none = (⟨path, ∅⟩, [path]) := rfl

/-- C8: a notebook whose cell sequence contains no cell with type tag
`"code"` yields an extraction result with an empty import name set. -/
theorem notebook_no_code_cells_empty (parse : String → Option PyNode)
    (path : String) (nb : Notebook)
    (h : ∀ c ∈ nb.cells, c.cell_type ≠ "code") :
    (extract_imports_from_notebook parse path (some nb)).1.imports = ∅ :=
  notebook_fold_const parse nb.cells ∅ h

theorem notebook_no_code_cells_empty_witness :
    (extract_imports_from_notebook (fun _ => none) "a.ipynb"
      (some c8Notebook)).1.imports = ∅ :=
  notebook_no_code_cells_empty (fun _ => none) "a.ipynb" c8Notebook (by decide)

/-- C9: whenever the primary parse fails and some line of the text strips
to `from . import x`, the fallback matcher's dotted-path group is `.`,
whose first dot-separated segment is the empty string, so the empty string
is an element of the extracted set — the fallback's output is not always a
set of first-segment module-name roots. -/
theorem fallback_adds_empty_string (parse : String → Option PyNode)
    (code : String) (line : List Char)
    (hp : parse code = none)
    (hline : line ∈ splitOnNl code.data)
    (hstrip : stripChars line = "from . import x".data) :
    ("" : String) ∈ extract_imports_from_code parse code := by
  rw [extract_imports_from_code, hp, extract_imports_regex]
  apply mem_foldl_lineImports _ _ line hline
  rw [lineImports, hstrip]
  decide

theorem fallback_adds_empty_string_witness :
    ("" : String) ∈ extract_imports_from_code (fun _ => none) "from . import x" :=
  fallback_adds_empty_string (fun _ => none) "from . import x"
    "from . import x".data rfl (by decide) (by decide)

/-- C10: the pip-name mapper is idempotent on every set of names, and
indeed no value of the import-to-package table is itself a key of the
table (every table value's own lookup misses). -/
theorem map_to_pip_names_idem :
    (∀ s : Finset String, map_to_pip_names (map_to_pip_names s) = map_to_pip_names s)
    ∧ (IMPORT_TO_PIP.all fun p => (lookupTable IMPORT_TO_PIP p.2).isNone) = true := by
  refine ⟨fun s => ?_, lookupTable_values⟩
  rw [map_to_pip_names, map_to_pip_names, Finset.image_image]
  exact Finset.image_congr fun x _ => pipName_idem x

end ExtractDeps
